import Mathlib

/-!
# Verification of the brain-hologram visualization pipeline

A shallow embedding, over exact rationals, of the data-transformation and
geometry pipeline of `viz_interactive.py` and `viz_hologram.py`:
per-frame normalization (`process_voxels`), the parameter store and its
update/reset/reprocess handlers, the particle sampler (`create_particles`),
the isosurface layer loops, and the per-tick update handlers of both scripts.

External numerical routines (numpy's elementwise `**` and `log`, scipy's
`gaussian_filter`, skimage's `marching_cubes`, the colormap, and
`np.random.choice`) are modelled as explicit function parameters; theorems
quantify over them or assume only their documented contracts.  Python
control flow, including exception propagation out of the tick handlers and
the scoping rule that makes `center` a function-local variable of
`viz_hologram.update`, is translated explicitly.
-/

namespace BrainHolo

/-! ## Scalars and small helpers -/

/-- `np.clip(x, 0, 1)` on one scalar. -/
def clip01 (x : ℚ) : ℚ := min (max x 0) 1

/-- Python `int(x)`: truncation toward zero. -/
def pyInt (x : ℚ) : ℤ := if 0 ≤ x then ⌊x⌋ else -⌊-x⌋

/-- Insert into a sorted list, ascending (helper for `npSort`). -/
def insertAsc (x : ℚ) : List ℚ → List ℚ
  | [] => [x]
  | y :: ys => if x ≤ y then x :: y :: ys else y :: insertAsc x ys

/-- `np.sort` on a flat list of scalars (insertion sort, ascending). -/
def npSort : List ℚ → List ℚ
  | [] => []
  | x :: xs => insertAsc x (npSort xs)

/-- `np.percentile(frame, q)` with the default linear interpolation:
with `h = q/100 * (n-1)` on the ascending sort `s`,
the result is `s[⌊h⌋] + (h - ⌊h⌋) * (s[⌊h⌋+1] - s[⌊h⌋])`
(the upper index clamped to the last element). -/
def percentile (frame : List ℚ) (q : ℚ) : ℚ :=
  let s := npSort frame
  let n := frame.length
  let h : ℚ := q * (n - 1) / 100
  let i : ℕ := (⌊h⌋).toNat
  let lo := s.getD i 0
  let hi := s.getD (i + 1) lo
  lo + (h - ⌊h⌋) * (hi - lo)

/-! ## Parameter snapshot (`params` dict of `viz_interactive.py`) -/

/-- The mutable `params` dictionary of `viz_interactive.py` (all values
numeric; `frame_skip` is kept as a rational and truncated with `int()`
at its use site, exactly as in the source). -/
structure Params where
  smoothing : ℚ
  gamma : ℚ
  step_size : ℚ
  clim_min : ℚ
  clim_max : ℚ
  contrast : ℚ
  rotation_speed : ℚ
  brightness : ℚ
  percentile_min : ℚ
  percentile_max : ℚ
  frame_skip : ℚ
  log_scale : ℚ
  deriving DecidableEq, Repr

/-- The default parameter values from `viz_interactive.py` (both the
initial `params = {...}` literal and the `reset_defaults` table). -/
def defaultParams : Params where
  smoothing := 3/2
  gamma := 2
  step_size := 1/2
  clim_min := 0
  clim_max := 7/10
  contrast := 4/5
  rotation_speed := 2
  brightness := 1
  percentile_min := 5
  percentile_max := 95
  frame_skip := 1
  log_scale := 0

/-! ## The normalization pipeline `process_voxels`

A frame is the flat list of a 3-D grid's scalars (all the pipeline's
steps are elementwise except the per-frame percentile, which only needs
the multiset of values).  The elementwise float power `**`, elementwise
`np.log`, and `scipy.ndimage.gaussian_filter` are external numerical
routines, passed in as `pw`, `lg`, `blur`. -/

/-- `1e-8`, the epsilon added before the log-mix. -/
def epsQ : ℚ := 1 / 100000000

/-- Step "logarithmic scaling" of `process_voxels` (executed only when
`log_scale > 0`): `voxels += 1e-8; log_voxels = log(voxels + 1);
voxels = (1-m)*voxels + m*log_voxels`, elementwise. -/
def logMix (lg : ℚ → ℚ) (m : ℚ) (x : ℚ) : ℚ :=
  (1 - m) * (x + epsQ) + m * lg (x + epsQ + 1)

/-- The per-frame percentile clip-and-rescale step of `process_voxels`:
`vmin, vmax = np.percentile(frame, [pmin, pmax])`; the frame is rescaled
and clipped only `if vmax > vmin`, otherwise it is left unchanged. -/
def normalizeFrame (pmin pmax : ℚ) (frame : List ℚ) : List ℚ :=
  let vmin := percentile frame pmin
  let vmax := percentile frame pmax
  if vmax > vmin then frame.map (fun x => clip01 ((x - vmin) / (vmax - vmin)))
  else frame

/-- The `if params['log_scale'] > 0:` block of `process_voxels`. -/
def logStep (lg : ℚ → ℚ) (p : Params) (v : List (List ℚ)) : List (List ℚ) :=
  if p.log_scale > 0 then v.map (List.map (logMix lg p.log_scale)) else v

/-- The per-frame normalization loop of `process_voxels`. -/
def normalizeStep (p : Params) (v : List (List ℚ)) : List (List ℚ) :=
  v.map (normalizeFrame p.percentile_min p.percentile_max)

/-- `voxels = voxels ** params['contrast']`. -/
def contrastStep (pw : ℚ → ℚ → ℚ) (p : Params) (v : List (List ℚ)) :
    List (List ℚ) :=
  v.map (List.map (fun x => pw x p.contrast))

/-- `voxels = voxels * params['brightness']`. -/
def brightnessStep (p : Params) (v : List (List ℚ)) : List (List ℚ) :=
  v.map (List.map (fun x => x * p.brightness))

/-- `voxels = np.clip(voxels, 0, 1)`. -/
def clipStep (v : List (List ℚ)) : List (List ℚ) :=
  v.map (List.map clip01)

/-- The `if params['smoothing'] > 0:` block of `process_voxels`. -/
def smoothStep (blur : List ℚ → List ℚ) (p : Params) (v : List (List ℚ)) :
    List (List ℚ) :=
  if p.smoothing > 0 then v.map blur else v

/-- `process_voxels()` from `viz_interactive.py`, as a function of the
raw series and the parameter snapshot it reads: the steps above in the
source's order.  `pw x c` models the elementwise `x ** c`, `lg` models
`np.log`, and `blur` models `gaussian_filter(·, sigma=smoothing)` on one
frame. -/
def process_voxels (pw : ℚ → ℚ → ℚ) (lg : ℚ → ℚ) (blur : List ℚ → List ℚ)
    (voxels_raw : List (List ℚ)) (p : Params) : List (List ℚ) :=
  smoothStep blur p
    (clipStep (brightnessStep p
      (contrastStep pw p (normalizeStep p (logStep lg p voxels_raw)))))

/-- Reference instantiation for the elementwise power `x ** c` at
integer-valued exponents `c` (where the float power agrees with the exact
integer power); used only to evaluate concrete snapshots whose `contrast`
is an integer. -/
def qzpow (x c : ℚ) : ℚ := x ^ c.num

/-! ## Transforms

A vispy `MatrixTransform` is modelled by the sequence of operations that
built it since the last `reset()`: identical sequences yield identical
matrices, so equality of these sequences is (bit-)identity of transforms. -/

/-- A 3-D vector of exact scalars. -/
abbrev Vec3 := ℚ × ℚ × ℚ

/-- Componentwise negation (`-center`). -/
def negV (v : Vec3) : Vec3 := (-v.1, -v.2.1, -v.2.2)

/-- One operation applied to a `MatrixTransform`. -/
inductive TOp where
  | translateOp (v : Vec3)
  | rotateOp (angle : ℚ) (axis : Vec3)
  deriving DecidableEq, Repr

/-- The state of a `MatrixTransform`: the operations applied since the
last `reset()` (a fresh `MatrixTransform()` is the empty sequence). -/
abbrev Transform := List TOp

/-- `t.reset()`. -/
def Transform.reset (_t : Transform) : Transform := []

/-- `t.translate(v)`. -/
def Transform.translate (t : Transform) (v : Vec3) : Transform :=
  t ++ [TOp.translateOp v]

/-- `t.rotate(angle, axis)`. -/
def Transform.rotate (t : Transform) (angle : ℚ) (axis : Vec3) : Transform :=
  t ++ [TOp.rotateOp angle axis]

/-- The rotation axis `(0, 0, 1)` used by both scripts. -/
def zAxis : Vec3 := (0, 0, 1)

/-! ## The interactive script's mutable state and handlers -/

/-- One of the twelve named sliders / `params` keys. -/
inductive ParamName where
  | smoothing | gamma | step_size | clim_min | clim_max | contrast
  | rotation_speed | brightness | percentile_min | percentile_max
  | frame_skip | log_scale
  deriving DecidableEq, Repr

/-- `params[param_name] = actual_value`. -/
def setParam : ParamName → ℚ → Params → Params
  | .smoothing, v, p => { p with smoothing := v }
  | .gamma, v, p => { p with gamma := v }
  | .step_size, v, p => { p with step_size := v }
  | .clim_min, v, p => { p with clim_min := v }
  | .clim_max, v, p => { p with clim_max := v }
  | .contrast, v, p => { p with contrast := v }
  | .rotation_speed, v, p => { p with rotation_speed := v }
  | .brightness, v, p => { p with brightness := v }
  | .percentile_min, v, p => { p with percentile_min := v }
  | .percentile_max, v, p => { p with percentile_max := v }
  | .frame_skip, v, p => { p with frame_skip := v }
  | .log_scale, v, p => { p with log_scale := v }

/-- The batch parameters: those the spec says take effect only on an
explicit reprocess. -/
def isBatch : ParamName → Prop
  | .smoothing | .contrast | .brightness
  | .percentile_min | .percentile_max | .log_scale => True
  | _ => False

instance (n : ParamName) : Decidable (isBatch n) := by
  cases n <;> simp [isBatch] <;> infer_instance

/-- The module-level mutable state of `viz_interactive.py`: the `params`
dict, the processed series `voxels` (reassigned by `reprocess`), the
animation cells `current_frame` / `rotation_angle`, and the externally
visible state of the `holo` volume visual and of the transforms. -/
structure IState where
  params : Params
  voxels : List (List ℚ)
  currentFrame : ℕ
  rotation_angle : ℚ
  holoData : List ℚ
  holoGamma : ℚ
  holoStep : ℚ
  holoClim : ℚ × ℚ
  holoTransform : Transform
  elecsTransform : Transform
  deriving DecidableEq, Repr

/-- The slider handler produced by `update_param(param_name)`, applied to
the de-scaled slider value: stores the value into `params`, and for the
live volume properties (`gamma`, `step_size`, `clim_min`/`clim_max`)
pushes it to the `holo` visual immediately.  No branch touches
`voxels`. -/
def update_param (name : ParamName) (v : ℚ) (s : IState) : IState :=
  let p := setParam name v s.params
  let s1 := { s with params := p }
  match name with
  | .gamma => { s1 with holoGamma := v }
  | .step_size => { s1 with holoStep := v }
  | .clim_min => { s1 with holoClim := (p.clim_min, p.clim_max) }
  | .clim_max => { s1 with holoClim := (p.clim_min, p.clim_max) }
  | _ => s1

/-- `reprocess()`: recomputes the global `voxels` from `voxels_raw` and
the current `params`, then pushes the current frame to the volume
visual. -/
def reprocess (pw : ℚ → ℚ → ℚ) (lg : ℚ → ℚ) (blur : List ℚ → List ℚ)
    (voxels_raw : List (List ℚ)) (s : IState) : IState :=
  let v := process_voxels pw lg blur voxels_raw s.params
  { s with voxels := v, holoData := v.getD s.currentFrame [] }

/-- A sequence of slider changes, applied in order. -/
def applyParamOps (ops : List (ParamName × ℚ)) (s : IState) : IState :=
  ops.foldl (fun st op => update_param op.1 op.2 st) s

/-- The tick handler `update(ev)` of `viz_interactive.py`.  `center` is
the module-level centering offset; `setDataFails` models the external
`holo.set_data` call raising (the surrounding `try` swallows any such
error after `current_frame` has already been advanced); an empty series
makes `% len(voxels)` raise `ZeroDivisionError`, also swallowed. -/
def updateInteractive (center : Vec3) (setDataFails : Bool) (dt : ℚ)
    (s : IState) : IState :=
  if s.voxels.length = 0 then s
  else
    let skip := max 1 (pyInt s.params.frame_skip)
    let i := (s.currentFrame + skip.toNat) % s.voxels.length
    let s1 := { s with currentFrame := i }
    if setDataFails then s1
    else
      let s2 := { s1 with holoData := s.voxels.getD i [] }
      let rot := s.rotation_angle + dt * s.params.rotation_speed
      let ht := ((s2.holoTransform.reset).translate (negV center)).rotate rot zAxis
      let et := ((s2.elecsTransform.reset).translate (negV center)).rotate rot zAxis
      { s2 with rotation_angle := rot, holoTransform := ht, elecsTransform := et }

/-! ## The hologram script (`viz_hologram.py`)

`skimage.measure.marching_cubes` is modelled by a parameter
`mc : Volume → ℚ → Option MCMesh`, where `none` stands for the call
raising (no surface crossing / degenerate topology); `np.random.choice`
by a parameter `chooser`; the colormap by `cmap`. -/

/-- An integer voxel coordinate. -/
abbrev Coord := ℕ × ℕ × ℕ

/-- A voxel volume: its voxels in C order, each with its scalar value. -/
abbrev Volume := List (Coord × ℚ)

/-- An RGBA color. -/
abbrev RGBA := ℚ × ℚ × ℚ × ℚ

/-- Cast an integer coordinate to a float position. -/
def coordToVec (c : Coord) : Vec3 := ((c.1 : ℚ), (c.2.1 : ℚ), (c.2.2 : ℚ))

/-- Componentwise subtraction (`pos - center`). -/
def subV (a b : Vec3) : Vec3 := (a.1 - b.1, a.2.1 - b.2.1, a.2.2 - b.2.2)

/-- `NUM_LAYERS = 5`. -/
def NUM_LAYERS : ℕ := 5

/-- `ROTATION_SPEED = 2`. -/
def ROTATION_SPEED : ℚ := 2

/-- `np.linspace(lo, hi, n)`. -/
def linspace (lo hi : ℚ) (n : ℕ) : List ℚ :=
  (List.range n).map (fun k => lo + k * (hi - lo) / ((n : ℚ) - 1))

/-- `iso_levels = np.linspace(0.3, 0.8, NUM_LAYERS)`. -/
def iso_levels : List ℚ := linspace (3/10) (4/5) NUM_LAYERS

/-- `intensity = (idx + 1) / NUM_LAYERS` for layer index `idx`. -/
def layerIntensity (idx N : ℕ) : ℚ := ((idx : ℚ) + 1) / (N : ℚ)

/-- The per-vertex alpha written by both layer loops:
`colors[:, 3] = 0.15 + 0.1 * intensity`. -/
def layerAlpha (idx N : ℕ) : ℚ := 15/100 + (1/10) * layerIntensity idx N

/-- The mesh data returned by a successful `measure.marching_cubes`
call (the parts the script consumes: vertices and faces). -/
structure MCMesh where
  verts : List Vec3
  faces : List (ℕ × ℕ × ℕ)
  deriving DecidableEq, Repr

/-- The vertex colors of one layer:
`colors = COLORMAP(verts[:, 2] / voxels.shape[3]); colors[:, 3] = alpha`. -/
def layerColors (cmap : ℚ → ℚ × ℚ × ℚ) (zdim : ℚ) (verts : List Vec3)
    (idx : ℕ) : List RGBA :=
  verts.map (fun v =>
    let rgb := cmap (v.2.2 / zdim)
    (rgb.1, rgb.2.1, rgb.2.2, layerAlpha idx NUM_LAYERS))

/-- The state of one `Mesh` visual in `mesh_layers`. -/
structure MeshLayer where
  verts : List Vec3
  faces : List (ℕ × ℕ × ℕ)
  colors : List RGBA
  transform : Transform
  deriving DecidableEq, Repr

/-- The body of the initial layer-creation loop for one level. -/
def mkLayer (cmap : ℚ → ℚ × ℚ × ℚ) (zdim : ℚ) (center : Vec3) (idx : ℕ)
    (m : MCMesh) : MeshLayer :=
  { verts := m.verts, faces := m.faces,
    colors := layerColors cmap zdim m.verts idx,
    transform := Transform.translate (Transform.reset []) (negV center) }

/-- The initial creation loop, from the failing level on: the single
`try` wraps the whole `for`, so the first level whose extraction raises
aborts the loop, keeping only the layers already appended. -/
def initialLayersGo (mc : Volume → ℚ → Option MCMesh)
    (cmap : ℚ → ℚ × ℚ × ℚ) (zdim : ℚ) (center : Vec3) (vol : Volume)
    (idx : ℕ) : List ℚ → List MeshLayer
  | [] => []
  | lvl :: rest =>
    match mc vol lvl with
    | none => []
    | some m =>
      mkLayer cmap zdim center idx m ::
        initialLayersGo mc cmap zdim center vol (idx + 1) rest

/-- `mesh_layers` as built by the module-level `try: for idx, level in
enumerate(iso_levels): ... except: ...` block of `viz_hologram.py`. -/
def makeInitialLayers (mc : Volume → ℚ → Option MCMesh)
    (cmap : ℚ → ℚ × ℚ × ℚ) (zdim : ℚ) (center : Vec3) (vol : Volume) :
    List MeshLayer :=
  initialLayersGo mc cmap zdim center vol 0 iso_levels

/-- The value of the expression `create_particles(...)`: either the
two-element `return None, None` or the three-element
`return positions, colors, sizes`. -/
inductive ParticleResult where
  | nonePair
  | triple (positions : List Vec3) (colors : List RGBA) (sizes : List ℚ)
  deriving DecidableEq, Repr

/-- `high_intensity = np.where(volume > threshold)`: the voxels whose
value exceeds the threshold, in C order. -/
def highIntensity (volume : Volume) (threshold : ℚ) : Volume :=
  volume.filter (fun cv => cv.2 > threshold)

/-- `high_intensity[0][indices], high_intensity[1][indices],
high_intensity[2][indices]` together with the value lookup: the matched
voxels at the chosen index positions. -/
def selectedVoxels (high : Volume) (idxs : List ℕ) : Volume :=
  idxs.map (fun j => high.getD j ((0, 0, 0), 0))

/-- `positions = np.column_stack([...]).astype(np.float32)`: the
coordinates of the selected voxels. -/
def particlePositions (sel : Volume) : List Vec3 :=
  sel.map (fun cv => coordToVec cv.1)

/-- `colors = COLORMAP(intensities); colors[:, 3] = intensities * 0.5`. -/
def particleColors (cmap : ℚ → ℚ × ℚ × ℚ) (intensities : List ℚ) :
    List RGBA :=
  intensities.map (fun t =>
    let rgb := cmap t
    (rgb.1, rgb.2.1, rgb.2.2, t * (1/2)))

/-- `sizes = 2 + intensities * 6`. -/
def particleSizes (intensities : List ℚ) : List ℚ :=
  intensities.map (fun t => 2 + t * 6)

/-- `create_particles(volume, threshold=0.8, max_points=3000)` from
`viz_hologram.py`: the indexing of the `np.where` arrays by the chosen
`indices` is `selectedVoxels`.  `chooser n k` models
`np.random.choice(n, k, replace=False)` (an arbitrary draw; theorems
assume only its contract). -/
def create_particles (chooser : ℕ → ℕ → List ℕ)
    (cmap : ℚ → ℚ × ℚ × ℚ) (volume : Volume)
    (threshold : ℚ := 4/5) (max_points : ℕ := 3000) : ParticleResult :=
  let high := highIntensity volume threshold
  if high.length = 0 then ParticleResult.nonePair
  else
    let indices := chooser high.length (min high.length max_points)
    let sel := selectedVoxels high indices
    let intensities := sel.map (fun cv => cv.2)
    ParticleResult.triple (particlePositions sel)
      (particleColors cmap intensities) (particleSizes intensities)

/-- The state of the `particles` Markers visual. -/
structure PMarkers where
  positions : List Vec3
  colors : List RGBA
  sizes : List ℚ
  transform : Transform
  deriving DecidableEq, Repr

/-- The module-level mutable state of `viz_hologram.py`. -/
structure HState where
  currentFrame : ℕ
  rotation : ℚ
  meshes : List MeshLayer
  particles : Option PMarkers
  elecsTransform : Transform
  deriving DecidableEq, Repr

/-- The Python exceptions the tick handler can raise (all swallowed by
its outer `except`). -/
inductive PyErr where
  | zeroDivisionError
  | valueError
  | unboundLocalError
  deriving DecidableEq, Repr

/-- The body of the per-layer update loop for one `(mesh, level)` pair:
the inner `try` turns an extraction failure into `pass`, leaving that
one layer unchanged. -/
def updateLayer (mc : Volume → ℚ → Option MCMesh)
    (cmap : ℚ → ℚ × ℚ × ℚ) (zdim : ℚ) (vol : Volume) (idx : ℕ)
    (m : MeshLayer) (lvl : ℚ) : MeshLayer :=
  match mc vol lvl with
  | some mm =>
    { m with verts := mm.verts, faces := mm.faces,
             colors := layerColors cmap zdim mm.verts idx }
  | none => m

/-- The loop `for idx, (mesh, level) in enumerate(zip(mesh_layers,
iso_levels)):` of the tick handler: it mutates each paired mesh in place
(layers without a paired level are left untouched, as `zip`
truncates). -/
def updateLayersGo (mc : Volume → ℚ → Option MCMesh)
    (cmap : ℚ → ℚ × ℚ × ℚ) (zdim : ℚ) (vol : Volume) :
    ℕ → List MeshLayer → List ℚ → List MeshLayer
  | _, [], _ => []
  | _, ms, [] => ms
  | idx, m :: ms, lvl :: lvls =>
    updateLayer mc cmap zdim vol idx m lvl ::
      updateLayersGo mc cmap zdim vol (idx + 1) ms lvls

/-- The whole per-layer update loop, over `iso_levels`. -/
def updateAllLayers (mc : Volume → ℚ → Option MCMesh)
    (cmap : ℚ → ℚ × ℚ × ℚ) (zdim : ℚ) (vol : Volume)
    (meshes : List MeshLayer) : List MeshLayer :=
  updateLayersGo mc cmap zdim vol 0 meshes iso_levels

/-- The "Rotate everything" tail of the tick handler (reached only when
the particle-update section did not raise): accumulate the rotation,
assign the local `center`, and rebuild every transform from identity.
`elec_markers` gets reset + rotate only (no translate), as in the
source. -/
def rotationSection (shapeHalf : Vec3) (dt : ℚ) (s : HState) :
    HState × Option PyErr :=
  let rot := s.rotation + dt * ROTATION_SPEED
  let center := shapeHalf
  let meshes2 := s.meshes.map (fun m =>
    { m with transform :=
        ((m.transform.reset).translate (negV center)).rotate rot zAxis })
  let particles2 := s.particles.map (fun pm =>
    { pm with transform :=
        ((pm.transform.reset).translate (negV center)).rotate rot zAxis })
  let et := (s.elecsTransform.reset).rotate rot zAxis
  ({ s with rotation := rot, meshes := meshes2, particles := particles2,
            elecsTransform := et }, none)

/-- The tick handler `update(ev)` of `viz_hologram.py`, returning the
post-tick state together with the exception (if any) swallowed by the
outer `except`.  Because `center` is assigned inside `update` (in the
rotation section), Python makes it local to the whole function body, so
the earlier read in `particles.set_data(pos - center, ...)` sees an
unbound local; and `create_particles`'s no-match `return None, None`
cannot be unpacked into the three names `pos, cols, szs`. -/
def updateHologram (mc : Volume → ℚ → Option MCMesh)
    (chooser : ℕ → ℕ → List ℕ) (cmap : ℚ → ℚ × ℚ × ℚ) (zdim : ℚ)
    (shapeHalf : Vec3) (voxels : List Volume) (dt : ℚ) (s : HState) :
    HState × Option PyErr :=
  if voxels.length = 0 then (s, some PyErr.zeroDivisionError)
  else
    let i := (s.currentFrame + 1) % voxels.length
    let vol := voxels.getD i []
    let meshes1 := updateAllLayers mc cmap zdim vol s.meshes
    let s1 := { s with currentFrame := i, meshes := meshes1 }
    let centerLocal : Option Vec3 := none
    match s1.particles with
    | some pm =>
      match create_particles chooser cmap vol (4/5) 3000 with
      | ParticleResult.nonePair => (s1, some PyErr.valueError)
      | ParticleResult.triple pos cols szs =>
        match centerLocal with
        | none => (s1, some PyErr.unboundLocalError)
        | some c =>
          let pm2 : PMarkers :=
            { pm with positions := pos.map (fun v => subV v c),
                      colors := cols, sizes := szs }
          let s2 := { s1 with particles := some pm2 }
          rotationSection shapeHalf dt s2
    | none => rotationSection shapeHalf dt s1

/-- Iterated ticks of `viz_interactive.py`'s handler, with per-tick
timestep `dts n` and per-tick external `set_data` failure `fails n`. -/
def iterInteractive (center : Vec3) (fails : ℕ → Bool) (dts : ℕ → ℚ)
    (s : IState) : ℕ → IState
  | 0 => s
  | n + 1 => updateInteractive center (fails n) (dts n)
      (iterInteractive center fails dts s n)

/-! ## Helper lemmas -/

theorem clip01_nonneg (x : ℚ) : 0 ≤ clip01 x :=
  le_min (le_max_right x 0) zero_le_one

theorem clip01_le_one (x : ℚ) : clip01 x ≤ 1 :=
  min_le_right _ _

theorem clip01_mem_unit (x : ℚ) : 0 ≤ clip01 x ∧ clip01 x ≤ 1 :=
  ⟨clip01_nonneg x, clip01_le_one x⟩

end BrainHolo

namespace BrainHolo

/-! ## C1: processed values lie in [0, 1] -/

/-- C1: For every finite raw input volume series and every parameter
snapshot with `percentile_min < percentile_max`, every value of the
processed series returned by `process_voxels` lies in `[0, 1]`, for all
frames and voxels.  (The external blur is assumed only to preserve the
unit interval, which holds of a Gaussian convolution.) -/
theorem processed_values_in_unit_interval
    (pw : ℚ → ℚ → ℚ) (lg : ℚ → ℚ) (blur : List ℚ → List ℚ)
    (hblur : ∀ f : List ℚ, (∀ x ∈ f, 0 ≤ x ∧ x ≤ 1) →
      ∀ y ∈ blur f, 0 ≤ y ∧ y ≤ 1)
    (raw : List (List ℚ)) (p : Params)
    (_hpct : p.percentile_min < p.percentile_max) :
    ∀ frame ∈ process_voxels pw lg blur raw p, ∀ v ∈ frame, 0 ≤ v ∧ v ≤ 1 := by
  have hstep : ∀ l : List (List ℚ), ∀ fr ∈ clipStep l, ∀ u ∈ fr, 0 ≤ u ∧ u ≤ 1 := by
    intro l fr hfr u hu
    obtain ⟨g, -, rfl⟩ := List.mem_map.mp hfr
    obtain ⟨x, -, rfl⟩ := List.mem_map.mp hu
    exact clip01_mem_unit _
  intro frame hf v hv
  rw [process_voxels, smoothStep] at hf
  split at hf
  · obtain ⟨f, hfmem, rfl⟩ := List.mem_map.mp hf
    exact hblur f (hstep _ f hfmem) v hv
  · exact hstep _ frame hf v hv

/-- C1 witness: the middle voxel of the concrete series `[[0, 1/2, 2]]`
processed at the default snapshot with integer contrast 1 and smoothing
off lies in `[0, 1]`. -/
theorem processed_values_in_unit_interval_witness :
    0 ≤ ((process_voxels qzpow id id [[0, 1/2, 2]]
        { defaultParams with contrast := 1, smoothing := 0 }).getD 0 []).getD 1 0 ∧
    ((process_voxels qzpow id id [[0, 1/2, 2]]
        { defaultParams with contrast := 1, smoothing := 0 }).getD 0 []).getD 1 0 ≤ 1 :=
  processed_values_in_unit_interval qzpow id id
    (fun _ h y hy => h y hy) [[0, 1/2, 2]]
    { defaultParams with contrast := 1, smoothing := 0 } (by decide)
    ((process_voxels qzpow id id [[0, 1/2, 2]]
      { defaultParams with contrast := 1, smoothing := 0 }).getD 0 [])
    (by with_unfolding_all decide)
    (((process_voxels qzpow id id [[0, 1/2, 2]]
      { defaultParams with contrast := 1, smoothing := 0 }).getD 0 []).getD 1 0)
    (by with_unfolding_all decide)

/-! ## C9: layer alpha is affine in the rank and non-decreasing -/

/-- C9: For every layer rank `k = idx + 1` in `1..N`, the per-vertex
alpha written by the layer loops equals `0.15 + 0.1 * (k / N)` (base
alpha plus increment times rank over layer count), every vertex color of
a layer carries exactly that alpha, and the alpha is non-decreasing
(indeed increasing) in the rank. -/
theorem layer_alpha_affine_monotone (N : ℕ) (hN : 0 < N) :
    (∀ idx : ℕ, layerAlpha idx N = 15/100 + (1/10) * (((idx : ℚ) + 1) / N)) ∧
    (∀ idx idx' : ℕ, idx ≤ idx' → layerAlpha idx N ≤ layerAlpha idx' N) ∧
    (∀ (cmap : ℚ → ℚ × ℚ × ℚ) (zdim : ℚ) (verts : List Vec3) (idx : ℕ),
      ∀ c ∈ layerColors cmap zdim verts idx,
        c.2.2.2 = layerAlpha idx NUM_LAYERS) := by
  have hNQ : (0 : ℚ) < (N : ℚ) := by exact_mod_cast hN
  refine ⟨fun idx => rfl, ?_, ?_⟩
  · intro idx idx' h
    have h0 : (idx : ℚ) ≤ (idx' : ℚ) := by exact_mod_cast h
    have h1 : ((idx : ℚ) + 1) / N ≤ ((idx' : ℚ) + 1) / N := by
      gcongr
    unfold layerAlpha layerIntensity
    linarith
  · intro cmap zdim verts idx c hc
    simp only [layerColors, List.mem_map] at hc
    obtain ⟨v, -, rfl⟩ := hc
    rfl

/-- C9 witness: with the script's `NUM_LAYERS = 5`, the alpha of the
first layer is at most the alpha of the last. -/
theorem layer_alpha_affine_monotone_witness :
    layerAlpha 0 5 = 15/100 + (1/10) * (((0 : ℚ) + 1) / (5 : ℕ)) ∧
    layerAlpha 0 5 ≤ layerAlpha 4 5 :=
  ⟨(layer_alpha_affine_monotone 5 (by decide)).1 0,
   (layer_alpha_affine_monotone 5 (by decide)).2.1 0 4 (by decide)⟩

/-! ## C2: a frame with collapsed percentile bounds is NOT zeroed

The spec claims `pmax ≤ pmin` makes the frame all-zero; the code's
normalization loop guards the rescale with `if vmax > vmin:` and
otherwise leaves the frame's raw values in place. -/

/-- The snapshot used for the C2 counterexample: defaults except
`contrast = 1` and `smoothing = 0` (integer contrast, so the float power
is exact; smoothing and log branches are off, so the external `lg`/`blur`
parameters are never invoked). -/
def c2Params : Params := { defaultParams with contrast := 1, smoothing := 0 }

/-- C2 counterexample: a constant frame of eight `1.0` voxels (so the 5th
and 95th percentiles coincide: `pmax ≤ pmin`) is processed to all ones —
not to all zeros as claimed. -/
theorem degenerate_frame_not_zeroed_counterexample :
    percentile (List.replicate 8 1) c2Params.percentile_max ≤
      percentile (List.replicate 8 1) c2Params.percentile_min ∧
    process_voxels qzpow id id [List.replicate 8 1] c2Params =
      [List.replicate 8 1] ∧
    List.replicate 8 (1 : ℚ) ≠ List.replicate 8 (0 : ℚ) := by
  refine ⟨by with_unfolding_all rfl, by with_unfolding_all rfl, by simp⟩

/-- C2 amended: a frame whose percentile bounds collapse
(`pmax ≤ pmin`) is left **unchanged** by the normalization step — not
zeroed — and then flows through the contrast/brightness/clip (and
optional smoothing) steps exactly like every other frame; frames with
`pmax > pmin` are clip-rescaled as usual.  (Over exact arithmetic no
NaN/Inf can arise; the `[0,1]` bound is the C1 theorem.) -/
theorem degenerate_frame_passes_through
    (pw : ℚ → ℚ → ℚ) (lg : ℚ → ℚ) (blur : List ℚ → List ℚ)
    (raw : List (List ℚ)) (p : Params) (i : ℕ) (fr : List ℚ)
    (hfr : (logStep lg p raw)[i]? = some fr) :
    (process_voxels pw lg blur raw p)[i]? =
      some ((if p.smoothing > 0 then blur else id)
        ((normalizeFrame p.percentile_min p.percentile_max fr).map
          (fun x => clip01 (pw x p.contrast * p.brightness)))) ∧
    (percentile fr p.percentile_max ≤ percentile fr p.percentile_min →
      normalizeFrame p.percentile_min p.percentile_max fr = fr) := by
  constructor
  · rw [process_voxels, smoothStep]
    split
    · rw [List.getElem?_map, clipStep, List.getElem?_map, brightnessStep,
        List.getElem?_map, contrastStep, List.getElem?_map, normalizeStep,
        List.getElem?_map, hfr]
      simp [List.map_map, Function.comp_def]
    · rw [clipStep, List.getElem?_map, brightnessStep, List.getElem?_map,
        contrastStep, List.getElem?_map, normalizeStep, List.getElem?_map, hfr]
      simp [List.map_map, Function.comp_def]
  · intro hcollapse
    rw [normalizeFrame]
    exact if_neg (not_lt.mpr hcollapse)

/-- C2 amended witness: the constant frame of ones at `c2Params` (whose
percentile bounds collapse) is left unchanged by the normalization
step. -/
theorem degenerate_frame_passes_through_witness :
    (process_voxels qzpow id id [List.replicate 8 1] c2Params)[0]? =
      some ((if c2Params.smoothing > 0 then id else id)
        ((normalizeFrame c2Params.percentile_min c2Params.percentile_max
            (List.replicate 8 1)).map
          (fun x => clip01 (qzpow x c2Params.contrast * c2Params.brightness)))) ∧
    normalizeFrame c2Params.percentile_min c2Params.percentile_max
      (List.replicate 8 1) = List.replicate 8 1 :=
  ⟨(degenerate_frame_passes_through qzpow id id [List.replicate 8 1] c2Params 0
      (List.replicate 8 1) rfl).1,
   (degenerate_frame_passes_through qzpow id id [List.replicate 8 1] c2Params 0
      (List.replicate 8 1) rfl).2 (by with_unfolding_all decide)⟩

/-! ## C4: no voxel above threshold — the sampler returns `(None, None)`

The spec claims an *empty* particle set (empty positions/colors/sizes);
the code instead executes `return None, None`, a two-element sentinel
with no arrays at all (its callers test `pos is not None`). -/

/-- The all-zero 4×4×4 frame named by the claim. -/
def zeroFrame4 : Volume :=
  (List.range 4).flatMap (fun x => (List.range 4).flatMap (fun y =>
    (List.range 4).map (fun z => ((x, y, z), (0 : ℚ)))))

/-- C4 counterexample: on the all-zero 4×4×4 frame with `threshold=0.8`,
`create_particles` returns the `(None, None)` sentinel, which is not a
triple of empty positions/colors/sizes (nor any triple). -/
theorem no_match_sentinel_counterexample :
    create_particles (fun _ k => List.range k) (fun _ => (0, 0, 0))
      zeroFrame4 (4/5) 3000 = ParticleResult.nonePair ∧
    ParticleResult.nonePair ≠ ParticleResult.triple [] [] [] :=
  ⟨by with_unfolding_all rfl, fun h => ParticleResult.noConfusion h⟩

/-- C4 amended: for every frame in which no voxel value exceeds the
threshold, `create_particles` returns the `(None, None)` sentinel
(meaning: no particles; call sites check `pos is not None`), rather than
a ParticleSet with empty arrays. -/
theorem no_match_returns_none_pair
    (chooser : ℕ → ℕ → List ℕ) (cmap : ℚ → ℚ × ℚ × ℚ) (volume : Volume)
    (threshold : ℚ) (max_points : ℕ)
    (h : ∀ cv ∈ volume, cv.2 ≤ threshold) :
    create_particles chooser cmap volume threshold max_points =
      ParticleResult.nonePair := by
  have hfil : volume.filter (fun cv => cv.2 > threshold) = [] := by
    refine List.filter_eq_nil_iff.mpr ?_
    intro a ha
    simpa using h a ha
  rw [create_particles, highIntensity, hfil]
  rfl

/-- C4 amended witness: the all-zero 4×4×4 frame with threshold 1. -/
theorem no_match_returns_none_pair_witness :
    create_particles (fun _ k => List.range k) (fun _ => (0, 0, 0))
      zeroFrame4 1 3000 = ParticleResult.nonePair :=
  no_match_returns_none_pair (fun _ k => List.range k) (fun _ => (0, 0, 0))
    zeroFrame4 1 3000 (by decide)

/-! ## C10: the particle cap and subsampling without replacement -/

/-- Reading a list at each index of `range l.length` reproduces it. -/
theorem map_getD_range {α : Type} (l : List α) (d : α) :
    (List.range l.length).map (fun i => l.getD i d) = l := by
  induction l with
  | nil => rfl
  | cons a t ih =>
    rw [List.length_cons, List.range_succ_eq_map, List.map_cons, List.map_map]
    simp only [List.getD_cons_zero, Function.comp_def, List.getD_cons_succ]
    rw [ih]

/-- A duplicate-free full-length in-range index list reads off a
permutation of the list. -/
theorem perm_map_getD_of_full {α β : Type} (l : List α) (d : α) (f : α → β)
    (idxs : List ℕ) (hnd : idxs.Nodup) (hlen : idxs.length = l.length)
    (hlt : ∀ j ∈ idxs, j < l.length) :
    (idxs.map (fun j => f (l.getD j d))).Perm (l.map f) := by
  have hsub : idxs ⊆ List.range l.length :=
    fun j hj => List.mem_range.mpr (hlt j hj)
  have hperm : idxs.Perm (List.range l.length) :=
    (hnd.subperm hsub).perm_of_length_le (by simp [hlen])
  have h1 := hperm.map (fun j => f (l.getD j d))
  have h2 : (List.range l.length).map (fun j => f (l.getD j d)) = l.map f := by
    have := congrArg (List.map f) (map_getD_range l d)
    rw [List.map_map] at this
    exact this
  rw [h2] at h1
  exact h1

/-- The number of particle entries a `create_particles` result holds. -/
def particleCount : ParticleResult → ℕ
  | ParticleResult.nonePair => 0
  | ParticleResult.triple pos _ _ => pos.length

/-- C10: under the contract of `np.random.choice(n, k, replace=False)`
(`k` distinct indices below `n`), `create_particles` returns at most
`max_points` entries; when the match count exceeds `max_points` it
returns exactly `max_points` entries drawn at duplicate-free in-range
indices; otherwise it returns one entry per matching voxel (the
positions are a permutation of the matched coordinates). -/
theorem particle_cap_and_subsample
    (chooser : ℕ → ℕ → List ℕ) (cmap : ℚ → ℚ × ℚ × ℚ) (volume : Volume)
    (threshold : ℚ) (max_points : ℕ)
    (hlen : ∀ n k, k ≤ n → (chooser n k).length = k)
    (hnd : ∀ n k, k ≤ n → (chooser n k).Nodup)
    (hlt : ∀ n k, k ≤ n → ∀ j ∈ chooser n k, j < n) :
    particleCount (create_particles chooser cmap volume threshold max_points) ≤
      max_points ∧
    ((highIntensity volume threshold).length > max_points →
      particleCount (create_particles chooser cmap volume threshold max_points) =
        max_points ∧
      ∃ idxs : List ℕ, idxs.Nodup ∧ idxs.length = max_points ∧
        (∀ j ∈ idxs, j < (highIntensity volume threshold).length) ∧
        create_particles chooser cmap volume threshold max_points =
          ParticleResult.triple
            (particlePositions (selectedVoxels (highIntensity volume threshold) idxs))
            (particleColors cmap
              ((selectedVoxels (highIntensity volume threshold) idxs).map (fun cv => cv.2)))
            (particleSizes
              ((selectedVoxels (highIntensity volume threshold) idxs).map (fun cv => cv.2)))) ∧
    (0 < (highIntensity volume threshold).length →
      (highIntensity volume threshold).length ≤ max_points →
      ∀ pos cols szs,
        create_particles chooser cmap volume threshold max_points =
          ParticleResult.triple pos cols szs →
        pos.length = (highIntensity volume threshold).length ∧
        pos.Perm ((highIntensity volume threshold).map (fun cv => coordToVec cv.1))) := by
  set high := highIntensity volume threshold with hhigh
  have hmin : min high.length max_points ≤ high.length := min_le_left _ _
  by_cases h0 : high.length = 0
  · refine ⟨?_, ?_, ?_⟩
    · rw [create_particles, ← hhigh, if_pos h0]
      exact Nat.zero_le _
    · intro hgt
      omega
    · intro hpos
      omega
  · have hcreate : create_particles chooser cmap volume threshold max_points =
        ParticleResult.triple
          (particlePositions (selectedVoxels high (chooser high.length (min high.length max_points))))
          (particleColors cmap
            ((selectedVoxels high (chooser high.length (min high.length max_points))).map
              (fun cv => cv.2)))
          (particleSizes
            ((selectedVoxels high (chooser high.length (min high.length max_points))).map
              (fun cv => cv.2))) := by
      rw [create_particles, ← hhigh, if_neg h0]
    have hclen : (chooser high.length (min high.length max_points)).length =
        min high.length max_points := hlen _ _ hmin
    have hposlen : (particlePositions
        (selectedVoxels high (chooser high.length (min high.length max_points)))).length =
        min high.length max_points := by
      rw [particlePositions, selectedVoxels, List.length_map, List.length_map, hclen]
    refine ⟨?_, ?_, ?_⟩
    · rw [hcreate, particleCount, hposlen]
      exact min_le_right _ _
    · intro hgt
      have hminr : min high.length max_points = max_points :=
        min_eq_right (le_of_lt hgt)
      refine ⟨by rw [hcreate, particleCount, hposlen, hminr], ?_⟩
      refine ⟨chooser high.length (min high.length max_points),
        hnd _ _ hmin, by rw [hclen, hminr], fun j hj => hlt _ _ hmin j hj, hcreate⟩
    · intro hpos hle pos cols szs heq
      rw [hcreate] at heq
      injection heq with h1 h2 h3
      subst h1
      have hminl : min high.length max_points = high.length := min_eq_left hle
      constructor
      · rw [hposlen, hminl]
      · rw [particlePositions, selectedVoxels, List.map_map]
        have := perm_map_getD_of_full high ((0, 0, 0), 0)
          (fun cv => coordToVec cv.1)
          (chooser high.length (min high.length max_points))
          (hnd _ _ hmin) (by rw [hclen, hminl])
          (fun j hj => hlt _ _ hmin j hj)
        exact this

/-! ## C5: extraction failure at one level

The per-tick loop wraps each level in its own `try`, so a failure skips
only that layer.  The initial creation loop instead wraps the *whole*
`for` in one `try`: the first failing level aborts creation of every
remaining layer. -/

/-- A placeholder mesh layer (used only as the `getD` default in
statements about in-range indices). -/
def defaultLayer : MeshLayer := ⟨[], [], [], []⟩

/-- `updateLayer` never touches the layer's transform. -/
theorem updateLayer_transform (mc : Volume → ℚ → Option MCMesh)
    (cmap : ℚ → ℚ × ℚ × ℚ) (zdim : ℚ) (vol : Volume) (idx : ℕ)
    (m : MeshLayer) (lvl : ℚ) :
    (updateLayer mc cmap zdim vol idx m lvl).transform = m.transform := by
  rw [updateLayer]
  cases mc vol lvl <;> rfl

/-- Each paired index of the per-layer loop is rewritten independently,
from its own level's extraction result only. -/
theorem updateLayersGo_getElem (mc : Volume → ℚ → Option MCMesh)
    (cmap : ℚ → ℚ × ℚ × ℚ) (zdim : ℚ) (vol : Volume) :
    ∀ (idx0 : ℕ) (ms : List MeshLayer) (lvls : List ℚ) (i : ℕ),
      i < ms.length → i < lvls.length →
      (updateLayersGo mc cmap zdim vol idx0 ms lvls)[i]? =
        some (updateLayer mc cmap zdim vol (idx0 + i)
          (ms.getD i defaultLayer) (lvls.getD i 0)) := by
  intro idx0 ms
  induction ms generalizing idx0 with
  | nil =>
    intro lvls i hi _
    simp at hi
  | cons m ms ih =>
    intro lvls i hi hil
    cases lvls with
    | nil => simp at hil
    | cons lvl lvls =>
      cases i with
      | zero => simp [updateLayersGo]
      | succ n =>
        have hn : n < ms.length := by simpa using hi
        have hnl : n < lvls.length := by simpa using hil
        have := ih (idx0 + 1) lvls n hn hnl
        simp only [updateLayersGo, List.getElem?_cons_succ, List.getD_cons_succ]
        rw [this]
        congr 2
        omega

/-- The per-layer loop never touches any layer's transform. -/
theorem updateLayersGo_transforms (mc : Volume → ℚ → Option MCMesh)
    (cmap : ℚ → ℚ × ℚ × ℚ) (zdim : ℚ) (vol : Volume) :
    ∀ (idx0 : ℕ) (ms : List MeshLayer) (lvls : List ℚ),
      (updateLayersGo mc cmap zdim vol idx0 ms lvls).map
          (fun m => m.transform) =
        ms.map (fun m => m.transform) := by
  intro idx0 ms
  induction ms generalizing idx0 with
  | nil => intro lvls; cases lvls <;> rfl
  | cons m ms ih =>
    intro lvls
    cases lvls with
    | nil => rfl
    | cons lvl lvls =>
      simp only [updateLayersGo, List.map_cons,
        updateLayer_transform, ih (idx0 + 1) lvls]

/-- The initial creation loop produces exactly the layers of the longest
prefix of levels whose extraction succeeds. -/
theorem initialLayersGo_length (mc : Volume → ℚ → Option MCMesh)
    (cmap : ℚ → ℚ × ℚ × ℚ) (zdim : ℚ) (center : Vec3) (vol : Volume) :
    ∀ (idx : ℕ) (lvls : List ℚ),
      (initialLayersGo mc cmap zdim center vol idx lvls).length =
        (lvls.takeWhile (fun l => (mc vol l).isSome)).length := by
  intro idx lvls
  induction lvls generalizing idx with
  | nil => rfl
  | cons lvl lvls ih =>
    rw [initialLayersGo, List.takeWhile]
    cases h : mc vol lvl <;> simp [h, ih (idx + 1)]

/-- C5 counterexample: an extraction function that fails at the first
level (0.3) but succeeds at every other level.  In the initial creation
loop no layer at all is created — in particular the succeeding second
level's layer is missing — refuting "extraction failure at one level
never prevents any other level's layer from being generated". -/
theorem initial_loop_aborts_counterexample :
    (fun (_ : Volume) (lvl : ℚ) =>
        if lvl = 3/10 then (none : Option MCMesh) else some ⟨[], []⟩) [] (iso_levels.getD 1 0) ≠ none ∧
    makeInitialLayers
      (fun (_ : Volume) (lvl : ℚ) =>
        if lvl = 3/10 then (none : Option MCMesh) else some ⟨[], []⟩)
      (fun _ => (0, 0, 0)) 1 (0, 0, 0) [] = [] := by
  constructor
  · with_unfolding_all decide
  · with_unfolding_all rfl

/-- C5 amended: in the per-tick update loop, each paired layer is
rewritten from its own level's extraction result alone — a failing level
leaves exactly that one layer unchanged and cannot affect any other —
but in the initial creation loop a single failure aborts all remaining
layers: only the prefix of levels before the first failure is
created. -/
theorem iso_failure_skips_only_that_layer
    (mc : Volume → ℚ → Option MCMesh) (cmap : ℚ → ℚ × ℚ × ℚ) (zdim : ℚ)
    (center : Vec3) (vol : Volume) (meshes : List MeshLayer) (i : ℕ)
    (hi : i < meshes.length) (hiN : i < iso_levels.length) :
    ((updateAllLayers mc cmap zdim vol meshes)[i]? =
      some (updateLayer mc cmap zdim vol i
        (meshes.getD i defaultLayer) (iso_levels.getD i 0))) ∧
    (mc vol (iso_levels.getD i 0) = none →
      (updateAllLayers mc cmap zdim vol meshes)[i]? = meshes[i]?) ∧
    (makeInitialLayers mc cmap zdim center vol).length =
      (iso_levels.takeWhile (fun l => (mc vol l).isSome)).length := by
  have hmain := updateLayersGo_getElem mc cmap zdim vol 0 meshes iso_levels i hi hiN
  rw [Nat.zero_add] at hmain
  refine ⟨hmain, ?_, initialLayersGo_length mc cmap zdim center vol 0 iso_levels⟩
  intro hnone
  rw [updateAllLayers, hmain, updateLayer, hnone]
  rw [List.getD_eq_getElem?_getD, List.getElem?_eq_getElem hi]
  rfl

/-- C5 witness: a two-layer state where extraction fails at the first
level; the first layer is left unchanged while the second layer's slot
is still rewritten from its own result. -/
theorem iso_failure_skips_only_that_layer_witness :
    ((updateAllLayers
        (fun (_ : Volume) (lvl : ℚ) =>
          if lvl = 3/10 then (none : Option MCMesh) else some ⟨[], []⟩)
        (fun _ => (0, 0, 0)) 1 [] [defaultLayer, defaultLayer])[0]? =
      some (updateLayer
        (fun (_ : Volume) (lvl : ℚ) =>
          if lvl = 3/10 then (none : Option MCMesh) else some ⟨[], []⟩)
        (fun _ => (0, 0, 0)) 1 [] 0
        ([defaultLayer, defaultLayer].getD 0 defaultLayer)
        (iso_levels.getD 0 0))) ∧
    ((updateAllLayers
        (fun (_ : Volume) (lvl : ℚ) =>
          if lvl = 3/10 then (none : Option MCMesh) else some ⟨[], []⟩)
        (fun _ => (0, 0, 0)) 1 [] [defaultLayer, defaultLayer])[0]? =
        [defaultLayer, defaultLayer][0]?) ∧
    (makeInitialLayers
      (fun (_ : Volume) (lvl : ℚ) =>
        if lvl = 3/10 then (none : Option MCMesh) else some ⟨[], []⟩)
      (fun _ => (0, 0, 0)) 1 (0, 0, 0) []).length =
      (iso_levels.takeWhile (fun l =>
        ((fun (_ : Volume) (lvl : ℚ) =>
          if lvl = 3/10 then (none : Option MCMesh) else some ⟨[], []⟩) [] l).isSome)).length :=
  ⟨(iso_failure_skips_only_that_layer
      (fun (_ : Volume) (lvl : ℚ) =>
        if lvl = 3/10 then (none : Option MCMesh) else some ⟨[], []⟩)
      (fun _ => (0, 0, 0)) 1 (0, 0, 0) [] [defaultLayer, defaultLayer] 0
      (by decide) (by decide)).1,
   (iso_failure_skips_only_that_layer
      (fun (_ : Volume) (lvl : ℚ) =>
        if lvl = 3/10 then (none : Option MCMesh) else some ⟨[], []⟩)
      (fun _ => (0, 0, 0)) 1 (0, 0, 0) [] [defaultLayer, defaultLayer] 0
      (by decide) (by decide)).2.1 (by with_unfolding_all decide),
   (iso_failure_skips_only_that_layer
      (fun (_ : Volume) (lvl : ℚ) =>
        if lvl = 3/10 then (none : Option MCMesh) else some ⟨[], []⟩)
      (fun _ => (0, 0, 0)) 1 (0, 0, 0) [] [defaultLayer, defaultLayer] 0
      (by decide) (by decide)).2.2⟩

/-! ## C7: the animation driver's frame advance -/

/-- A tick never changes the processed series or the parameter
snapshot. -/
theorem updateInteractive_preserves (center : Vec3) (fail : Bool) (dt : ℚ)
    (s : IState) :
    (updateInteractive center fail dt s).voxels = s.voxels ∧
    (updateInteractive center fail dt s).params = s.params := by
  simp only [updateInteractive]
  split
  · exact ⟨rfl, rfl⟩
  · split
    · exact ⟨rfl, rfl⟩
    · exact ⟨rfl, rfl⟩

/-- `max(1, int(2)) = 2` for the scenario's `frame_skip = 2`. -/
theorem pyInt_two : (max 1 (pyInt 2)).toNat = 2 := by
  have h : pyInt 2 = 2 := by
    rw [pyInt, if_pos (by norm_num)]
    norm_num
  rw [h]
  decide

/-- C7: every tick of `viz_interactive.py` advances the frame index by
`max(1, int(frame_skip))` modulo the series length, for any timestep and
regardless of whether the external `set_data` call fails; for an
integer `frame_skip ≥ 1` this is exactly `frame_skip`; with
`frame_skip = 2` over a 5-frame series starting at index 0 the index
after `n` ticks is `2n mod 5` (so the visited indices are
0,2,4,1,3,0,…); and every tick of `viz_hologram.py` advances its frame
index by 1 modulo the series length, for every extraction outcome. -/
theorem frame_advance_law :
    (∀ (center : Vec3) (fail : Bool) (dt : ℚ) (s : IState),
      s.voxels.length ≠ 0 →
      (updateInteractive center fail dt s).currentFrame =
        (s.currentFrame + (max 1 (pyInt s.params.frame_skip)).toNat) %
          s.voxels.length) ∧
    (∀ (center : Vec3) (fail : Bool) (dt : ℚ) (s : IState) (k : ℕ),
      s.voxels.length ≠ 0 → s.params.frame_skip = (k : ℚ) → 1 ≤ k →
      (updateInteractive center fail dt s).currentFrame =
        (s.currentFrame + k) % s.voxels.length) ∧
    (∀ (center : Vec3) (fails : ℕ → Bool) (dts : ℕ → ℚ) (s : IState),
      s.voxels.length = 5 → s.currentFrame = 0 → s.params.frame_skip = 2 →
      ∀ n : ℕ,
        (iterInteractive center fails dts s n).currentFrame = (2 * n) % 5) ∧
    (∀ (mc : Volume → ℚ → Option MCMesh) (chooser : ℕ → ℕ → List ℕ)
        (cmap : ℚ → ℚ × ℚ × ℚ) (zdim : ℚ) (shapeHalf : Vec3)
        (voxels : List Volume) (dt : ℚ) (s : HState),
      voxels.length ≠ 0 →
      (updateHologram mc chooser cmap zdim shapeHalf voxels dt s).1.currentFrame =
        (s.currentFrame + 1) % voxels.length) := by
  have law : ∀ (center : Vec3) (fail : Bool) (dt : ℚ) (s : IState),
      s.voxels.length ≠ 0 →
      (updateInteractive center fail dt s).currentFrame =
        (s.currentFrame + (max 1 (pyInt s.params.frame_skip)).toNat) %
          s.voxels.length := by
    intro center fail dt s h
    simp only [updateInteractive]
    rw [if_neg h]
    split
    · rfl
    · rfl
  refine ⟨law, ?_, ?_, ?_⟩
  · intro center fail dt s k h hfs hk
    rw [law center fail dt s h, hfs]
    congr 2
    rw [pyInt, if_pos (by positivity), Int.floor_natCast]
    omega
  · intro center fails dts s hlen hcur hfs n
    induction n with
    | zero => simpa using hcur
    | succ n ih =>
      have hpres : ∀ m : ℕ,
          (iterInteractive center fails dts s m).voxels = s.voxels ∧
          (iterInteractive center fails dts s m).params = s.params := by
        intro m
        induction m with
        | zero => exact ⟨rfl, rfl⟩
        | succ m ihm =>
          have := updateInteractive_preserves center (fails m) (dts m)
            (iterInteractive center fails dts s m)
          exact ⟨this.1.trans ihm.1, this.2.trans ihm.2⟩
      have hl : (iterInteractive center fails dts s n).voxels.length ≠ 0 := by
        rw [(hpres n).1, hlen]
        omega
      have := law center (fails n) (dts n) (iterInteractive center fails dts s n) hl
      rw [iterInteractive, this, (hpres n).1, (hpres n).2, hlen, hfs, ih, pyInt_two]
      omega
  · intro mc chooser cmap zdim shapeHalf voxels dt s h
    simp only [updateHologram]
    rw [if_neg h]
    split
    · split
      · rfl
      · rfl
    · rfl

/-- The concrete 5-frame state of the C7 scenario. -/
def scenarioState : IState where
  params := { defaultParams with frame_skip := 2 }
  voxels := [[0], [0], [0], [0], [0]]
  currentFrame := 0
  rotation_angle := 0
  holoData := [0]
  holoGamma := 2
  holoStep := 1/2
  holoClim := (0, 7/10)
  holoTransform := []
  elecsTransform := []

/-- C7 witness: after three ticks of the scenario the frame index is
`6 mod 5 = 1`. -/
theorem frame_advance_law_witness :
    (iterInteractive (0, 0, 0) (fun _ => false) (fun _ => 1)
      scenarioState 3).currentFrame = (2 * 3) % 5 :=
  frame_advance_law.2.2.1 (0, 0, 0) (fun _ => false) (fun _ => 1)
    scenarioState rfl rfl rfl 3

/-! ## C3: with particles present, every hologram tick raises -/

/-- Iterated ticks of `viz_hologram.py`'s handler with per-tick
timestep `dts n` (the globals `voxels`, `mc`, … are fixed for the run,
as in the script). -/
def iterHolo (mc : Volume → ℚ → Option MCMesh) (chooser : ℕ → ℕ → List ℕ)
    (cmap : ℚ → ℚ × ℚ × ℚ) (zdim : ℚ) (shapeHalf : Vec3)
    (voxels : List Volume) (dts : ℕ → ℚ) (s : HState) : ℕ → HState
  | 0 => s
  | n + 1 =>
    (updateHologram mc chooser cmap zdim shapeHalf voxels (dts n)
      (iterHolo mc chooser cmap zdim shapeHalf voxels dts s n)).1

/-- One hologram tick with particles present: the handler raises
(`ValueError` on the `(None, None)` unpack, `UnboundLocalError` on the
`center` read otherwise), and the state mutations after the raise point
never happen. -/
theorem updateHologram_tick_raises (mc : Volume → ℚ → Option MCMesh)
    (chooser : ℕ → ℕ → List ℕ) (cmap : ℚ → ℚ × ℚ × ℚ) (zdim : ℚ)
    (shapeHalf : Vec3) (voxels : List Volume) (dt : ℚ) (s : HState)
    (hp : s.particles.isSome) (hv : voxels.length ≠ 0) :
    ((updateHologram mc chooser cmap zdim shapeHalf voxels dt s).2 =
        some PyErr.valueError ∨
      (updateHologram mc chooser cmap zdim shapeHalf voxels dt s).2 =
        some PyErr.unboundLocalError) ∧
    (updateHologram mc chooser cmap zdim shapeHalf voxels dt s).1.rotation =
      s.rotation ∧
    (updateHologram mc chooser cmap zdim shapeHalf voxels dt s).1.meshes.map
        (fun m => m.transform) =
      s.meshes.map (fun m => m.transform) ∧
    (updateHologram mc chooser cmap zdim shapeHalf voxels dt s).1.particles =
      s.particles ∧
    (updateHologram mc chooser cmap zdim shapeHalf voxels dt s).1.elecsTransform =
      s.elecsTransform := by
  obtain ⟨pm, hpm⟩ := Option.isSome_iff_exists.mp hp
  simp only [updateHologram]
  rw [if_neg hv]
  simp only [hpm]
  set vol := voxels.getD ((s.currentFrame + 1) % voxels.length) [] with hvol
  cases hcp : create_particles chooser cmap vol (4/5) 3000 with
  | nonePair =>
    refine ⟨Or.inl rfl, rfl, ?_, rfl, rfl⟩
    exact updateLayersGo_transforms mc cmap zdim vol 0 s.meshes iso_levels
  | triple pos cols szs =>
    refine ⟨Or.inr rfl, rfl, ?_, rfl, rfl⟩
    exact updateLayersGo_transforms mc cmap zdim vol 0 s.meshes iso_levels

/-- C3: if the initial particle set was created (`particles is not
None`), each tick of `viz_hologram.py`'s `update` raises before the
rotation section — `ValueError` when `create_particles` returns its
`(None, None)` sentinel (unpacked into three names), otherwise
`UnboundLocalError` on the read of the function-local `center` — and the
outer `except` swallows it; consequently over any number of ticks the
accumulated rotation never moves and no transform (mesh layers,
particles, electrodes) is ever updated. -/
theorem update_always_raises_before_rotation (mc : Volume → ℚ → Option MCMesh)
    (chooser : ℕ → ℕ → List ℕ) (cmap : ℚ → ℚ × ℚ × ℚ) (zdim : ℚ)
    (shapeHalf : Vec3) (voxels : List Volume) (s : HState)
    (hp : s.particles.isSome) (hv : voxels.length ≠ 0) :
    (∀ dt : ℚ,
      (updateHologram mc chooser cmap zdim shapeHalf voxels dt s).2 =
          some PyErr.valueError ∨
      (updateHologram mc chooser cmap zdim shapeHalf voxels dt s).2 =
          some PyErr.unboundLocalError) ∧
    (∀ (dts : ℕ → ℚ) (n : ℕ),
      (iterHolo mc chooser cmap zdim shapeHalf voxels dts s n).rotation =
        s.rotation ∧
      (iterHolo mc chooser cmap zdim shapeHalf voxels dts s n).meshes.map
          (fun m => m.transform) =
        s.meshes.map (fun m => m.transform) ∧
      (iterHolo mc chooser cmap zdim shapeHalf voxels dts s n).particles =
        s.particles ∧
      (iterHolo mc chooser cmap zdim shapeHalf voxels dts s n).elecsTransform =
        s.elecsTransform) := by
  constructor
  · intro dt
    exact (updateHologram_tick_raises mc chooser cmap zdim shapeHalf voxels
      dt s hp hv).1
  · intro dts n
    induction n with
    | zero => exact ⟨rfl, rfl, rfl, rfl⟩
    | succ n ih =>
      obtain ⟨hrot, hmesh, hpart, helec⟩ := ih
      have hps : (iterHolo mc chooser cmap zdim shapeHalf voxels dts s n).particles.isSome := by
        rw [hpart]
        exact hp
      have step := updateHologram_tick_raises mc chooser cmap zdim shapeHalf
        voxels (dts n) (iterHolo mc chooser cmap zdim shapeHalf voxels dts s n)
        hps hv
      refine ⟨?_, ?_, ?_, ?_⟩
      · exact (step.2.1).trans hrot
      · exact (step.2.2.1).trans hmesh
      · exact (step.2.2.2.1).trans hpart
      · exact (step.2.2.2.2).trans helec

/-- A concrete hologram state with a particle visual present and zero
initial rotation. -/
def sampleHState : HState where
  currentFrame := 0
  rotation := 0
  meshes := [defaultLayer]
  particles := some ⟨[], [], [], []⟩
  elecsTransform := []

/-- C3 witness: on a one-frame series the tick raises and two iterated
ticks leave the rotation at 0. -/
theorem update_always_raises_before_rotation_witness :
    ((updateHologram (fun _ _ => none) (fun _ k => List.range k)
        (fun _ => (0, 0, 0)) 1 (0, 0, 0) [[]] 1 sampleHState).2 =
          some PyErr.valueError ∨
      (updateHologram (fun _ _ => none) (fun _ k => List.range k)
        (fun _ => (0, 0, 0)) 1 (0, 0, 0) [[]] 1 sampleHState).2 =
          some PyErr.unboundLocalError) ∧
    (iterHolo (fun _ _ => none) (fun _ k => List.range k)
      (fun _ => (0, 0, 0)) 1 (0, 0, 0) [[]] (fun _ => 1)
      sampleHState 2).rotation = sampleHState.rotation :=
  ⟨(update_always_raises_before_rotation (fun _ _ => none)
      (fun _ k => List.range k) (fun _ => (0, 0, 0)) 1 (0, 0, 0) [[]]
      sampleHState rfl (by decide)).1 1,
   ((update_always_raises_before_rotation (fun _ _ => none)
      (fun _ k => List.range k) (fun _ => (0, 0, 0)) 1 (0, 0, 0) [[]]
      sampleHState rfl (by decide)).2 (fun _ => 1) 2).1⟩

/-! ## C8: batch parameters take effect only on reprocess -/

/-- The series after the normalization prefix of the pipeline (the
spec's "old_base_normalized": non-finite cleanup is outside
`process_voxels`; this is the log-mix plus percentile normalization,
before contrast/brightness). -/
def baseNormalizedSeries (lg : ℚ → ℚ) (raw : List (List ℚ)) (p : Params) :
    List (List ℚ) :=
  normalizeStep p (logStep lg p raw)

/-- C8: a slider change — in particular any batch parameter — never
touches the processed series; only `reprocess` recomputes it, and the
recomputed series is exactly `process_voxels` of the snapshot current at
that moment (after any sequence of slider changes), never a blend of old
and new parameters.  With `brightness = 1` and smoothing off, the
reprocessed series is the base-normalized series raised elementwise to
the current `contrast` and clipped — e.g. `contrast = 2` yields
`clip((base_normalized)^2)`. -/
theorem batch_params_take_effect_only_on_reprocess :
    (∀ (name : ParamName) (v : ℚ) (s : IState), isBatch name →
      (update_param name v s).voxels = s.voxels) ∧
    (∀ (pw : ℚ → ℚ → ℚ) (lg : ℚ → ℚ) (blur : List ℚ → List ℚ)
        (raw : List (List ℚ)) (s : IState),
      (reprocess pw lg blur raw s).voxels =
        process_voxels pw lg blur raw s.params) ∧
    (∀ (pw : ℚ → ℚ → ℚ) (lg : ℚ → ℚ) (blur : List ℚ → List ℚ)
        (raw : List (List ℚ)) (ops : List (ParamName × ℚ)) (s : IState),
      (reprocess pw lg blur raw (applyParamOps ops s)).voxels =
        process_voxels pw lg blur raw (applyParamOps ops s).params) ∧
    (∀ (pw : ℚ → ℚ → ℚ) (lg : ℚ → ℚ) (blur : List ℚ → List ℚ)
        (raw : List (List ℚ)) (p : Params),
      p.brightness = 1 → ¬ p.smoothing > 0 →
      process_voxels pw lg blur raw p =
        (baseNormalizedSeries lg raw p).map
          (List.map (fun x => clip01 (pw x p.contrast)))) := by
  refine ⟨?_, ?_, ?_, ?_⟩
  · intro name v s _
    cases name <;> rfl
  · intro pw lg blur raw s
    rfl
  · intro pw lg blur raw ops s
    rfl
  · intro pw lg blur raw p hb hs
    simp only [process_voxels, smoothStep, if_neg hs, clipStep, brightnessStep,
      contrastStep, baseNormalizedSeries, List.map_map, Function.comp_def, hb,
      mul_one]

/-- C8 witness: changing `contrast` (a batch parameter) to 2 leaves the
processed series untouched. -/
theorem batch_params_take_effect_only_on_reprocess_witness :
    (update_param ParamName.contrast 2 scenarioState).voxels =
      scenarioState.voxels :=
  batch_params_take_effect_only_on_reprocess.1 ParamName.contrast 2
    scenarioState trivial

/-! ## C6: transforms are rebuilt from identity every tick -/

/-- C6: on a successful tick of `viz_interactive.py` the volume's and
the electrode node's transforms equal
`Translate(-center) ∘ Rotate(θ', z)` built from a fresh identity, where
`θ'` is the accumulated angle after the tick — independently of the
previous tick's transform; hence any two ticks that end with the same
accumulated angle (and the same center) produce identical transforms,
no matter how many ticks separate them.  The rotation section of
`viz_hologram.py` rebuilds every mesh layer's transform the same
way. -/
theorem transform_rebuilt_from_identity :
    (∀ (center : Vec3) (dt : ℚ) (s : IState), s.voxels.length ≠ 0 →
      (updateInteractive center false dt s).holoTransform =
        [TOp.translateOp (negV center),
         TOp.rotateOp (s.rotation_angle + dt * s.params.rotation_speed) zAxis] ∧
      (updateInteractive center false dt s).elecsTransform =
        [TOp.translateOp (negV center),
         TOp.rotateOp (s.rotation_angle + dt * s.params.rotation_speed) zAxis]) ∧
    (∀ (center : Vec3) (dt dt' : ℚ) (s s' : IState),
      s.voxels.length ≠ 0 → s'.voxels.length ≠ 0 →
      s.rotation_angle + dt * s.params.rotation_speed =
        s'.rotation_angle + dt' * s'.params.rotation_speed →
      (updateInteractive center false dt s).holoTransform =
        (updateInteractive center false dt' s').holoTransform) ∧
    (∀ (shapeHalf : Vec3) (dt : ℚ) (hs : HState),
      ∀ m ∈ (rotationSection shapeHalf dt hs).1.meshes,
        m.transform = [TOp.translateOp (negV shapeHalf),
          TOp.rotateOp (hs.rotation + dt * ROTATION_SPEED) zAxis]) := by
  have fresh : ∀ (center : Vec3) (dt : ℚ) (s : IState), s.voxels.length ≠ 0 →
      (updateInteractive center false dt s).holoTransform =
        [TOp.translateOp (negV center),
         TOp.rotateOp (s.rotation_angle + dt * s.params.rotation_speed) zAxis] ∧
      (updateInteractive center false dt s).elecsTransform =
        [TOp.translateOp (negV center),
         TOp.rotateOp (s.rotation_angle + dt * s.params.rotation_speed) zAxis] := by
    intro center dt s h
    simp only [updateInteractive]
    rw [if_neg h]
    exact ⟨rfl, rfl⟩
  refine ⟨fresh, ?_, ?_⟩
  · intro center dt dt' s s' h h' heq
    rw [(fresh center dt s h).1, (fresh center dt' s' h').1, heq]
  · intro shapeHalf dt hs m hm
    simp only [rotationSection, List.mem_map] at hm
    obtain ⟨m0, -, rfl⟩ := hm
    rfl

/-- C6 witness: a concrete one-frame state ticked with `dt = 1`. -/
theorem transform_rebuilt_from_identity_witness :
    (updateInteractive (0, 0, 0) false 1 scenarioState).holoTransform =
      [TOp.translateOp (negV (0, 0, 0)),
       TOp.rotateOp (scenarioState.rotation_angle +
         1 * scenarioState.params.rotation_speed) zAxis] ∧
    (updateInteractive (0, 0, 0) false 1 scenarioState).elecsTransform =
      [TOp.translateOp (negV (0, 0, 0)),
       TOp.rotateOp (scenarioState.rotation_angle +
         1 * scenarioState.params.rotation_speed) zAxis] :=
  transform_rebuilt_from_identity.1 (0, 0, 0) 1 scenarioState (by decide)

/-- C10 witness: a one-voxel volume above threshold 0, with the
take-the-first-`k` instantiation of the subsampling draw. -/
theorem particle_cap_and_subsample_witness :
    particleCount (create_particles (fun _ k => List.range k)
      (fun _ => (0, 0, 0)) [((0, 0, 0), 1)] 0 3000) ≤ 3000 :=
  (particle_cap_and_subsample (fun _ k => List.range k) (fun _ => (0, 0, 0))
    [((0, 0, 0), 1)] 0 3000
    (fun _ k _ => List.length_range k)
    (fun _ k _ => List.nodup_range k)
    (fun _ _ hk _ hj => lt_of_lt_of_le (List.mem_range.mp hj) hk)).1

end BrainHolo
